import Mathlib

/-!
Verification of the SmollR batch image-processing pipeline
(`src/src/screens/Finish/Finish.tsx`).

The TypeScript component is shallowly embedded below:
* JS `number` arithmetic is modelled exactly over `ℚ`/`ℕ`/`ℤ`
  (`Math.round x = ⌊x + 1/2⌋`, ties toward `+∞`);
* the human-readable size string `"<value> <unit>"` is modelled by the pair
  `SizeStr` — `split(' ')[0]`/`parseFloat` recover the value and
  `split(' ')[1]` the unit, so the pair carries exactly the information the
  code produces and later re-parses;
* the two external effectful operations (the canvas re-encode inside
  `convertImageFormat` and the third-party `imageCompression` call) are given
  by an `Outcome` oracle which says whether each call succeeds and with which
  output byte size, and which progress callbacks the library fires; the blobs
  they produce are tracked with full provenance by the inductive `Blob`;
* React state updates become explicit values: the result list is passed and
  returned, the `setCurrentProcessing` progress updates are collected in
  order in `RunTrace.progressReports`.
-/

namespace Smollr

/-- JS `Math.round`: nearest integer, ties toward `+∞`. -/
def jsRound (q : ℚ) : ℤ := ⌊q + 1 / 2⌋

/-- JS `parseFloat(x.toFixed(2))`: round to two decimal places
(ties toward `+∞`), trailing zeros dropped by `parseFloat`. -/
def round2 (q : ℚ) : ℚ := (jsRound (q * 100) : ℚ) / 100

/-- JS `String.prototype.toUpperCase` (ASCII range, which is all the code
feeds it). -/
def jsToUpper (s : String) : String := ⟨s.data.map Char.toUpper⟩

/-- JS `String.prototype.toLowerCase` (ASCII range). -/
def jsToLower (s : String) : String := ⟨s.data.map Char.toLower⟩

/-- JS `String.prototype.split` with a one-character separator, on the
character list. -/
def splitChar (c : Char) : List Char → List String
  | [] => [""]
  | a :: as =>
      let rest := splitChar c as
      if a = c then "" :: rest
      else
        match rest with
        | [] => [⟨[a]⟩]
        | r :: rs => (⟨a :: r.data⟩ : String) :: rs

/-- JS `s.split(c)` for a one-character separator `c`. -/
def jsSplit (s : String) (c : Char) : List String := splitChar c s.data

/-- JS `String.prototype.startsWith`. -/
def jsStartsWith (s p : String) : Bool := p.data.isPrefixOf s.data

/-- JS `name.replace(/\.[^/.]+$/, "")`: drop a trailing `"." ++ suffix` where
the suffix is nonempty and contains neither `'.'` nor `'/'`; otherwise the
string is unchanged. -/
def stripExt (s : String) : String :=
  let rev := s.data.reverse
  let run := rev.takeWhile fun c => c ≠ '.' && c ≠ '/'
  match rev.drop run.length with
  | '.' :: rest => if run.isEmpty then s else ⟨rest.reverse⟩
  | _ => s

/-- Model of the displayed size string `"<value> <unit>"` produced by
`formatFileSize`: `value` is the numeric prefix (`split(' ')[0]`, recovered
exactly by `parseFloat`), `unit` the unit token (`split(' ')[1]`). -/
structure SizeStr where
  value : ℚ
  unit : String
deriving DecidableEq

/-- `const sizes = ['Bytes', 'KB', 'MB', 'GB']` in `formatFileSize`. -/
def sizeUnits : List String := ["Bytes", "KB", "MB", "GB"]

/-- `formatFileSize` (Finish.tsx lines 62-68): `'0 Bytes'` for 0; otherwise
`i = Math.floor(Math.log(bytes)/Math.log(1024))` (exactly `Nat.log 1024`)
and the string `parseFloat((bytes / 1024 ** i).toFixed(2)) + ' ' + sizes[i]`;
JS `sizes[i]` for `i ≥ 4` is `undefined`, which string concatenation renders
as `"undefined"`. -/
def formatFileSize (bytes : ℕ) : SizeStr :=
  if bytes = 0 then ⟨0, "Bytes"⟩
  else
    let i := Nat.log 1024 bytes
    ⟨round2 ((bytes : ℚ) / 1024 ^ i), (sizeUnits.get? i).getD "undefined"⟩

/-- `calculateCompressionRatio` (lines 70-72):
`Math.round(((originalSize - compressedSize) / originalSize) * 100)`. -/
def calculateCompressionRatio (originalSize compressedSize : ℕ) : ℤ :=
  jsRound ((((originalSize : ℚ) - compressedSize) / originalSize) * 100)

/-- An input file handle: `name`, declared MIME `type`, byte `size`. -/
structure JSFile where
  name : String
  type : String
  size : ℕ
deriving DecidableEq

/-- A browser blob with provenance: either the raw input file, the output of
the offscreen-canvas re-encode (`canvas.toBlob(cb, mimeType, quality)`), or
the output of the third-party compression library. -/
inductive Blob where
  | file (name : String) (mimeType : String) (size : ℕ)
  | canvasEncode (src : Blob) (mimeType : String) (quality : Option ℚ) (size : ℕ)
  | libCompressed (src : Blob) (size : ℕ)
deriving DecidableEq

/-- The nested ternary choosing the target MIME type in `convertImageFormat`
(lines 85-87). -/
def conversionMime (targetFormat : String) : String :=
  if targetFormat = "AVIF" then "image/avif"
  else if targetFormat = "WEBP" then "image/webp"
  else if targetFormat = "JPEG" then "image/jpeg"
  else "image/png"

/-- `const quality = targetFormat === 'PNG' ? undefined : 0.9` (line 89):
`none` (lossless PNG encode) exactly for target PNG, else quality 0.9. -/
def conversionQuality (targetFormat : String) : Option ℚ :=
  if targetFormat = "PNG" then none else some (9 / 10)

/-- `convertImageFormat` (lines 74-103): decode the file into a canvas and
re-encode via `canvas.toBlob` at `conversionMime`/`conversionQuality`.
`encodeResult` is the oracle for the two external failure points (image load
error, `toBlob` returning null): `some n` means the encode produced a blob of
`n` bytes, `none` means the promise rejected. -/
def convertImageFormat (src : Blob) (targetFormat : String) (encodeResult : Option ℕ) :
    Option Blob :=
  encodeResult.map fun n =>
    Blob.canvasEncode src (conversionMime targetFormat) (conversionQuality targetFormat) n

/-- The two pieces of component state that steer one processing run:
the `manualConversion` toggle and the `selectedFormat` choice. -/
structure Config where
  manualConversion : Bool
  selectedFormat : String
deriving DecidableEq

/-- Oracle for the external calls made while processing one file:
`freshId` is the `crypto.randomUUID()` draw, `convertResult` the canvas
re-encode outcome (output size or rejection), `compressResult` the
`imageCompression` outcome, and `progressEvents` the values the library
passes to `onProgress`, in order. -/
structure Outcome where
  freshId : String
  convertResult : Option ℕ
  compressResult : Option ℕ
  progressEvents : List ℚ
deriving DecidableEq

/-- The `OptimizedImage` record (lines 9-20). -/
structure OptimizedImage where
  id : String
  name : String
  format : String
  originalFormat : String
  originalSize : SizeStr
  optimizedSize : SizeStr
  thumbnail : Blob
  blob : Blob
  compressionRatio : ℤ
  isConverted : Bool
deriving DecidableEq

/-- Everything one `handleImageOptimization` call does: the appended result
(`none` when the `catch` swallowed a failure), the canvas-encode calls made
(MIME type and quality), and the `setCurrentProcessing` progress values in
order. -/
structure RunTrace where
  result : Option OptimizedImage
  convertCalls : List (String × Option ℚ)
  progressReports : List ℚ
deriving DecidableEq

/-- `handleImageOptimization` (lines 104-163). `file.type.split('/')[1]`
being absent makes `.toUpperCase()` throw before any state update, caught by
the `catch`. Otherwise: pick the target format, set progress 0, optionally
(manual mode, differing formats) set progress 25 and convert, then compress
with `onProgress` rescaled by `25 + progress * 0.75` exactly when a
conversion happened, and on success append the `OptimizedImage` built from
the original byte size and the compressed byte size. -/
def handleImageOptimization (cfg : Config) (file : JSFile) (out : Outcome) : RunTrace :=
  match (jsSplit file.type '/').get? 1 with
  | none => ⟨none, [], []⟩
  | some sub =>
      let originalFormat := jsToUpper sub
      let targetFormat := if cfg.manualConversion then cfg.selectedFormat else originalFormat
      let isConverted := cfg.manualConversion && (originalFormat != cfg.selectedFormat)
      let needConvert := cfg.manualConversion && isConverted
      let adjust : ℚ → ℚ := fun p => if needConvert then 25 + p * (3 / 4) else p
      let srcBlob := Blob.file file.name file.type file.size
      let convCalls : List (String × Option ℚ) :=
        if needConvert then
          [(conversionMime cfg.selectedFormat, conversionQuality cfg.selectedFormat)]
        else []
      let preReports : List ℚ := if needConvert then [0, 25] else [0]
      let processed? : Option Blob :=
        if needConvert then convertImageFormat srcBlob cfg.selectedFormat out.convertResult
        else some srcBlob
      match processed? with
      | none => ⟨none, convCalls, preReports⟩
      | some processed =>
          let reports := preReports ++ out.progressEvents.map adjust
          match out.compressResult with
          | none => ⟨none, convCalls, reports⟩
          | some csize =>
              let compressedBlob := Blob.libCompressed processed csize
              ⟨some {
                  id := out.freshId
                  name := file.name
                  format := targetFormat
                  originalFormat := originalFormat
                  originalSize := formatFileSize file.size
                  optimizedSize := formatFileSize csize
                  thumbnail := compressedBlob
                  blob := compressedBlob
                  compressionRatio := calculateCompressionRatio file.size csize
                  isConverted := isConverted
                }, convCalls, reports⟩

/-- Observable outcome of one `handleFiles` call: the result list afterwards,
whether the too-many-files `alert` fired, and how many files entered the
per-file processing loop. -/
structure FilesOut where
  results : List OptimizedImage
  alerted : Bool
  processedCount : ℕ
deriving DecidableEq

/-- The `for (const file of imageFiles) await handleImageOptimization(file)`
loop: each successful run appends its result
(`setOptimizedImages(prev => [...prev, optimizedImage])`), a failed run
leaves the list unchanged. `env i` is the oracle for the `i`-th file. -/
def processBatch (cfg : Config) (env : ℕ → Outcome) (imageFiles : List JSFile)
    (prev : List OptimizedImage) : List OptimizedImage :=
  imageFiles.enum.foldl
    (fun acc p =>
      match (handleImageOptimization cfg p.2 (env p.1)).result with
      | some r => acc ++ [r]
      | none => acc)
    prev

/-- `handleFiles` (lines 165-180): filter to files whose declared type starts
with `image/`; if more than 10 remain, alert and stop with nothing processed;
otherwise run the sequential loop. -/
def handleFiles (cfg : Config) (env : ℕ → Outcome) (files : List JSFile)
    (prev : List OptimizedImage) : FilesOut :=
  let imageFiles := files.filter fun f => jsStartsWith f.type "image/"
  if 10 < imageFiles.length then ⟨prev, true, 0⟩
  else ⟨processBatch cfg env imageFiles prev, false, imageFiles.length⟩

/-- One triggered browser download: the `link.download` name and the blob the
object URL points at. -/
structure DownloadAction where
  fileName : String
  blob : Blob
deriving DecidableEq

/-- `handleDownloadAll` (lines 204-215): for every held result, download its
stored blob under
`` `${nameWithoutExt}-optimized.${image.format.toLowerCase()}` ``. -/
def handleDownloadAll (images : List OptimizedImage) : List DownloadAction :=
  images.map fun image =>
    ⟨stripExt image.name ++ "-optimized." ++ jsToLower image.format, image.blob⟩

/-- `handleDeleteImage` (lines 217-219):
`setOptimizedImages(prev => prev.filter(img => img.id !== id))`. -/
def handleDeleteImage (id : String) (images : List OptimizedImage) : List OptimizedImage :=
  images.filter fun img => img.id != id

/-- The `reduce` body in `getTotalOptimization` (lines 224-234):
`unit === 'MB' ? size * 1024 : size` — only an MB value is rescaled, any
other unit's numeric value is used as-is. -/
def parseSizeKB (s : SizeStr) : ℚ :=
  if s.unit = "MB" then s.value * 1024 else s.value

/-- `getTotalOptimization` (lines 221-237): 0 for an empty list, else
`Math.round(((totalOriginal - totalOptimized) / totalOriginal) * 100)` over
the two `reduce` sums. -/
def getTotalOptimization (images : List OptimizedImage) : ℤ :=
  if images.length = 0 then 0
  else
    let totalOriginal := images.foldl (fun acc img => acc + parseSizeKB img.originalSize) 0
    let totalOptimized := images.foldl (fun acc img => acc + parseSizeKB img.optimizedSize) 0
    jsRound (((totalOriginal - totalOptimized) / totalOriginal) * 100)

/-- Modelled from the spec: "parse each entry's human-readable size strings
(value + unit, unit ∈ {Bytes, KB, MB, GB}) back into a common unit (KB...)"
— the correct normalization of a size string to KB. -/
def specParseKB (s : SizeStr) : ℚ :=
  if s.unit = "Bytes" then s.value / 1024
  else if s.unit = "KB" then s.value
  else if s.unit = "MB" then s.value * 1024
  else if s.unit = "GB" then s.value * 1024 * 1024
  else 0

/-- Modelled from the spec: the Aggregate Reporter contract
"return `round(100 * (Σoriginal − Σoptimized) / Σoriginal)`", with every
entry normalized to KB, and 0 on the empty list. -/
def specTotalOptimization (images : List OptimizedImage) : ℤ :=
  if images.length = 0 then 0
  else
    let totalOriginal := (images.map fun img => specParseKB img.originalSize).sum
    let totalOptimized := (images.map fun img => specParseKB img.optimizedSize).sum
    jsRound (100 * ((totalOriginal - totalOptimized) / totalOriginal))

/-! ### Helper lemmas -/

/-- Evaluate `jsRound` from a bracketing of `q + 1/2`. -/
theorem jsRound_eq (q : ℚ) (n : ℤ) (h1 : (n : ℚ) ≤ q + 1 / 2) (h2 : q + 1 / 2 < n + 1) :
    jsRound q = n := by
  rw [jsRound, Int.floor_eq_iff]
  exact ⟨h1, h2⟩

/-- A negative argument makes `jsRound` nonpositive. -/
theorem jsRound_nonpos (q : ℚ) (h : q < 0) : jsRound q ≤ 0 := by
  have : jsRound q < 1 := by
    rw [jsRound]
    exact Int.floor_lt.mpr (by push_cast; linarith)
  omega

/-- Length of a `filterMap` as a count of successes. -/
theorem length_filterMap_eq_countP {α β : Type} (f : α → Option β) (ps : List α) :
    (ps.filterMap f).length = ps.countP fun p => (f p).isSome := by
  induction ps with
  | nil => simp
  | cons a as ih =>
      cases h : f a with
      | none => simp [List.filterMap_cons, h, List.countP_cons, ih]
      | some b => simp [List.filterMap_cons, h, List.countP_cons, ih]

/-- Shape of a successful `handleImageOptimization` run: the MIME subtype
existed, the compression call succeeded, and every stored field is the
corresponding expression from the source. -/
theorem handleImageOptimization_success (cfg : Config) (file : JSFile) (out : Outcome)
    (r : OptimizedImage) (hr : (handleImageOptimization cfg file out).result = some r) :
    ∃ sub c, (jsSplit file.type '/').get? 1 = some sub ∧ out.compressResult = some c ∧
      r.id = out.freshId ∧ r.name = file.name ∧
      r.originalFormat = jsToUpper sub ∧
      r.format = (if cfg.manualConversion then cfg.selectedFormat else jsToUpper sub) ∧
      r.originalSize = formatFileSize file.size ∧
      r.optimizedSize = formatFileSize c ∧
      r.compressionRatio = calculateCompressionRatio file.size c ∧
      r.isConverted = (cfg.manualConversion && (jsToUpper sub != cfg.selectedFormat)) := by
  unfold handleImageOptimization at hr
  split at hr
  · simp at hr
  · next sub hsub =>
      dsimp only at hr
      split at hr
      · simp at hr
      · split at hr
        · simp at hr
        · next c hc =>
            refine ⟨sub, c, hsub, hc, ?_⟩
            simp only [RunTrace.mk.injEq] at hr
            obtain rfl := (Option.some.injEq _ _ ▸ hr).symm
            simp

/-! ### Claim theorems -/

/-- C5: when the `OptimizedResult` list is empty, the Aggregate Reporter
(`getTotalOptimization`) returns exactly 0 via its early return, so no
division by zero is reached. -/
theorem getTotalOptimization_empty : getTotalOptimization [] = 0 := rfl

/-- C3: a dropped/selected batch with more than 10 image-typed files is
rejected whole: the alert fires, zero files enter the processing loop, zero
results are produced, and the pre-existing result list is returned
unchanged. -/
theorem handleFiles_rejects_over_ten (cfg : Config) (env : ℕ → Outcome)
    (files : List JSFile) (prev : List OptimizedImage)
    (h : 10 < (files.filter fun f => jsStartsWith f.type "image/").length) :
    handleFiles cfg env files prev = ⟨prev, true, 0⟩ := by
  simp only [handleFiles]
  rw [if_pos h]

/-- Witness for C3: eleven PNG files are rejected with no state change. -/
theorem handleFiles_rejects_over_ten_witness :
    handleFiles ⟨false, "WEBP"⟩ (fun _ => ⟨"id", none, none, []⟩)
        (List.replicate 11 ⟨"a.png", "image/png", 100⟩) []
      = ⟨[], true, 0⟩ :=
  handleFiles_rejects_over_ten _ _ _ _ (by decide)

/-- C9: when the held results have pairwise distinct identifiers, deleting by
the identifier of a present entry removes exactly that entry and keeps every
other entry in its original relative order. -/
theorem handleDeleteImage_removes_exactly (images : List OptimizedImage)
    (r : OptimizedImage) (hmem : r ∈ images)
    (hnodup : (images.map OptimizedImage.id).Nodup) :
    ∃ s t, images = s ++ r :: t ∧ handleDeleteImage r.id images = s ++ t := by
  induction images with
  | nil => cases hmem
  | cons a as ih =>
      rw [List.map_cons, List.nodup_cons] at hnodup
      rcases List.mem_cons.mp hmem with rfl | htail
      · refine ⟨[], as, rfl, ?_⟩
        have hstep : handleDeleteImage r.id (r :: as) = handleDeleteImage r.id as := by
          simp [handleDeleteImage]
        rw [hstep]
        simp only [handleDeleteImage, List.nil_append]
        refine List.filter_eq_self.mpr ?_
        intro x hx
        have : x.id ∈ as.map OptimizedImage.id := List.mem_map.mpr ⟨x, hx, rfl⟩
        have hne : x.id ≠ r.id := fun hEq => hnodup.1 (hEq ▸ this)
        simpa [bne_iff_ne] using hne
      · obtain ⟨s, t, hsplit, hdel⟩ := ih htail hnodup.2
        have hane : a.id ≠ r.id := by
          intro hEq
          exact hnodup.1 (hEq ▸ List.mem_map.mpr ⟨r, htail, rfl⟩)
        refine ⟨a :: s, t, by rw [hsplit]; rfl, ?_⟩
        have : handleDeleteImage r.id (a :: as) = a :: handleDeleteImage r.id as := by
          simp [handleDeleteImage, List.filter_cons, bne_iff_ne, hane]
        rw [this, hdel]
        rfl

/-- Witness for C9: deleting the first of two results with distinct ids
leaves exactly the second. -/
theorem handleDeleteImage_removes_exactly_witness :
    ∃ s t,
      [(⟨"a", "x.png", "PNG", "PNG", ⟨1, "KB"⟩, ⟨1, "KB"⟩, Blob.file "x.png" "image/png" 1,
          Blob.file "x.png" "image/png" 1, 0, false⟩ : OptimizedImage),
        ⟨"b", "y.png", "PNG", "PNG", ⟨2, "KB"⟩, ⟨1, "KB"⟩, Blob.file "y.png" "image/png" 2,
          Blob.file "y.png" "image/png" 2, 50, false⟩]
        = s ++ (⟨"a", "x.png", "PNG", "PNG", ⟨1, "KB"⟩, ⟨1, "KB"⟩,
            Blob.file "x.png" "image/png" 1, Blob.file "x.png" "image/png" 1, 0,
            false⟩ : OptimizedImage) :: t
      ∧ handleDeleteImage
          (OptimizedImage.id ⟨"a", "x.png", "PNG", "PNG", ⟨1, "KB"⟩, ⟨1, "KB"⟩,
            Blob.file "x.png" "image/png" 1, Blob.file "x.png" "image/png" 1, 0, false⟩)
          [⟨"a", "x.png", "PNG", "PNG", ⟨1, "KB"⟩, ⟨1, "KB"⟩, Blob.file "x.png" "image/png" 1,
              Blob.file "x.png" "image/png" 1, 0, false⟩,
            ⟨"b", "y.png", "PNG", "PNG", ⟨2, "KB"⟩, ⟨1, "KB"⟩, Blob.file "y.png" "image/png" 2,
              Blob.file "y.png" "image/png" 2, 50, false⟩]
          = s ++ t :=
  handleDeleteImage_removes_exactly _ _ (List.mem_cons_self _ _)
    (by simp [List.nodup_cons])

/-- C2 (amended): for every successfully compressed file with original byte
size `o > 0` and optimized byte size `c`, the stored `compressionRatio`
equals `round(100 * (o - c) / o)` (never clamped), it is nonpositive — though
not always strictly negative — when `c > o`, and it equals 75 for
`o = 1000000`, `c = 250000`. -/
theorem compressionRatio_stored (cfg : Config) (file : JSFile) (out : Outcome)
    (r : OptimizedImage) (c : ℕ)
    (hr : (handleImageOptimization cfg file out).result = some r)
    (hc : out.compressResult = some c)
    (ho : 0 < file.size) :
    r.compressionRatio = jsRound ((((file.size : ℚ) - (c : ℚ)) / (file.size : ℚ)) * 100)
    ∧ ((file.size : ℚ) < (c : ℚ) → r.compressionRatio ≤ 0)
    ∧ calculateCompressionRatio 1000000 250000 = 75 := by
  obtain ⟨sub, c', hsub, hc', -, -, -, -, -, -, hratio, -⟩ :=
    handleImageOptimization_success cfg file out r hr
  rw [hc] at hc'
  obtain rfl := Option.some.inj hc'
  have hopos : (0 : ℚ) < (file.size : ℚ) := by exact_mod_cast ho
  refine ⟨by rw [hratio]; rfl, ?_, ?_⟩
  · intro hlt
    rw [hratio]
    unfold calculateCompressionRatio
    apply jsRound_nonpos
    apply mul_neg_of_neg_of_pos
    · apply div_neg_of_neg_of_pos <;> linarith
    · norm_num
  · unfold calculateCompressionRatio
    apply jsRound_eq <;> norm_num

/-- Witness for C2: a run shrinking 1000000 bytes to 250000 bytes satisfies
the amended claim, with ratio 75. -/
theorem compressionRatio_stored_witness :
    calculateCompressionRatio 1000000 250000
        = jsRound ((((1000000 : ℕ) : ℚ) - ((250000 : ℕ) : ℚ)) / ((1000000 : ℕ) : ℚ) * 100)
    ∧ (((1000000 : ℕ) : ℚ) < ((250000 : ℕ) : ℚ) → calculateCompressionRatio 1000000 250000 ≤ 0)
    ∧ calculateCompressionRatio 1000000 250000 = 75 :=
  compressionRatio_stored ⟨false, "WEBP"⟩ ⟨"a.png", "image/png", 1000000⟩
    ⟨"id", none, some 250000, []⟩ _ 250000 rfl rfl (by norm_num)

/-- Counterexample for C2 as stated: a file that grows from 1000 to 1001
bytes (`c > o`) stores compression ratio `Math.round(-0.1) = 0`, which is not
negative — the claim "is negative when c > o" fails. -/
theorem compressionRatio_zero_on_growth_cex :
    ((handleImageOptimization ⟨false, "WEBP"⟩ ⟨"a.png", "image/png", 1000⟩
          ⟨"id", none, some 1001, []⟩).result).map OptimizedImage.compressionRatio
      = some 0
    ∧ (1000 : ℕ) < 1001 := by
  constructor
  · show some (calculateCompressionRatio 1000 1001) = some 0
    have h : calculateCompressionRatio 1000 1001 = 0 := by
      unfold calculateCompressionRatio
      apply jsRound_eq <;> norm_num
    rw [h]
  · decide

/-- The processing loop in closed form: previous results followed by the
successful runs, in input order. -/
theorem processBatch_eq (cfg : Config) (env : ℕ → Outcome) (imgs : List JSFile)
    (prev : List OptimizedImage) :
    processBatch cfg env imgs prev
      = prev ++ imgs.enum.filterMap fun p => (handleImageOptimization cfg p.2 (env p.1)).result := by
  unfold processBatch
  generalize imgs.enum = ps
  induction ps generalizing prev with
  | nil => simp
  | cons a as ih =>
      rw [List.foldl_cons, List.filterMap_cons]
      cases h : (handleImageOptimization cfg a.2 (env a.1)).result with
      | none => simp only [h]; rw [ih]
      | some r => simp only [h]; rw [ih]; simp

/-- C4: an accepted batch of 1-10 image files is processed file by file; a
failed run is skipped while the rest still run (every accepted file enters
the loop), and the number of results appended equals the number of files
whose processing did not fail. -/
theorem handleFiles_result_count (cfg : Config) (env : ℕ → Outcome) (files : List JSFile)
    (prev : List OptimizedImage) (imgs : List JSFile)
    (himgs : files.filter (fun f => jsStartsWith f.type "image/") = imgs)
    (h1 : 1 ≤ imgs.length) (h10 : imgs.length ≤ 10) :
    (handleFiles cfg env files prev).results
        = prev
            ++ imgs.enum.filterMap (fun p => (handleImageOptimization cfg p.2 (env p.1)).result)
    ∧ (handleFiles cfg env files prev).results.length
        = prev.length
            + imgs.enum.countP
                (fun p => ((handleImageOptimization cfg p.2 (env p.1)).result).isSome)
    ∧ (handleFiles cfg env files prev).alerted = false
    ∧ (handleFiles cfg env files prev).processedCount = imgs.length := by
  have hnot : ¬ 10 < (files.filter fun f => jsStartsWith f.type "image/").length := by
    rw [himgs]; omega
  have hH : handleFiles cfg env files prev
      = ⟨processBatch cfg env imgs prev, false, imgs.length⟩ := by
    simp only [handleFiles]
    rw [if_neg hnot, himgs]
  rw [hH]
  refine ⟨processBatch_eq .., ?_, rfl, rfl⟩
  simp [processBatch_eq, length_filterMap_eq_countP]

/-- Witness for C4: two image files (a text file is filtered out), the second
one failing compression, append exactly one result. -/
theorem handleFiles_result_count_witness :
    (handleFiles ⟨false, "WEBP"⟩
          (fun i => if i = 0 then ⟨"id0", none, some 512, []⟩ else ⟨"id1", none, none, []⟩)
          [⟨"a.png", "image/png", 2048⟩, ⟨"b.jpg", "image/jpeg", 100⟩,
            ⟨"notes.txt", "text/plain", 5⟩]
          []).results
        = []
            ++ ([⟨"a.png", "image/png", 2048⟩, ⟨"b.jpg", "image/jpeg", 100⟩] :
                  List JSFile).enum.filterMap
                (fun p => (handleImageOptimization ⟨false, "WEBP"⟩ p.2
                    ((fun i => if i = 0 then (⟨"id0", none, some 512, []⟩ : Outcome)
                      else ⟨"id1", none, none, []⟩) p.1)).result)
    ∧ (handleFiles ⟨false, "WEBP"⟩
          (fun i => if i = 0 then ⟨"id0", none, some 512, []⟩ else ⟨"id1", none, none, []⟩)
          [⟨"a.png", "image/png", 2048⟩, ⟨"b.jpg", "image/jpeg", 100⟩,
            ⟨"notes.txt", "text/plain", 5⟩]
          []).results.length
        = ([] : List OptimizedImage).length
            + ([⟨"a.png", "image/png", 2048⟩, ⟨"b.jpg", "image/jpeg", 100⟩] :
                  List JSFile).enum.countP
                (fun p => ((handleImageOptimization ⟨false, "WEBP"⟩ p.2
                    ((fun i => if i = 0 then (⟨"id0", none, some 512, []⟩ : Outcome)
                      else ⟨"id1", none, none, []⟩) p.1)).result).isSome)
    ∧ (handleFiles ⟨false, "WEBP"⟩
          (fun i => if i = 0 then ⟨"id0", none, some 512, []⟩ else ⟨"id1", none, none, []⟩)
          [⟨"a.png", "image/png", 2048⟩, ⟨"b.jpg", "image/jpeg", 100⟩,
            ⟨"notes.txt", "text/plain", 5⟩]
          []).alerted = false
    ∧ (handleFiles ⟨false, "WEBP"⟩
          (fun i => if i = 0 then ⟨"id0", none, some 512, []⟩ else ⟨"id1", none, none, []⟩)
          [⟨"a.png", "image/png", 2048⟩, ⟨"b.jpg", "image/jpeg", 100⟩,
            ⟨"notes.txt", "text/plain", 5⟩]
          []).processedCount
        = ([⟨"a.png", "image/png", 2048⟩, ⟨"b.jpg", "image/jpeg", 100⟩] : List JSFile).length :=
  handleFiles_result_count ⟨false, "WEBP"⟩
    (fun i => if i = 0 then ⟨"id0", none, some 512, []⟩ else ⟨"id1", none, none, []⟩)
    [⟨"a.png", "image/png", 2048⟩, ⟨"b.jpg", "image/jpeg", 100⟩, ⟨"notes.txt", "text/plain", 5⟩]
    [] [⟨"a.png", "image/png", 2048⟩, ⟨"b.jpg", "image/jpeg", 100⟩] rfl (by decide) (by decide)

/-- C6: in manual-conversion mode, a PNG source with target WEBP is
re-encoded through the canvas at quality 0.9 (quality is `undefined`, i.e.
lossless, only for target PNG), and the stored result has `format` WEBP,
differing original and result formats, and `isConverted` set. -/
theorem manual_png_webp (file : JSFile) (out : Outcome) (r : OptimizedImage)
    (ht : file.type = "image/png")
    (hr : (handleImageOptimization ⟨true, "WEBP"⟩ file out).result = some r) :
    r.format = "WEBP" ∧ r.originalFormat = "PNG" ∧ r.originalFormat ≠ r.format
    ∧ r.isConverted = true
    ∧ (handleImageOptimization ⟨true, "WEBP"⟩ file out).convertCalls
        = [("image/webp", some ((9 : ℚ) / 10))]
    ∧ conversionQuality "PNG" = none := by
  obtain ⟨n, t, sz⟩ := file
  dsimp only at ht
  subst ht
  obtain ⟨fid, cv, cp, evs⟩ := out
  cases cv with
  | none =>
      rw [show (handleImageOptimization ⟨true, "WEBP"⟩ ⟨n, "image/png", sz⟩
          ⟨fid, none, cp, evs⟩).result = none from rfl] at hr
      exact Option.noConfusion hr
  | some cs =>
      cases cp with
      | none =>
          rw [show (handleImageOptimization ⟨true, "WEBP"⟩ ⟨n, "image/png", sz⟩
              ⟨fid, some cs, none, evs⟩).result = none from rfl] at hr
          exact Option.noConfusion hr
      | some csz =>
          rw [show (handleImageOptimization ⟨true, "WEBP"⟩ ⟨n, "image/png", sz⟩
              ⟨fid, some cs, some csz, evs⟩).result
              = some
                  { id := fid, name := n, format := "WEBP", originalFormat := "PNG"
                    originalSize := formatFileSize sz, optimizedSize := formatFileSize csz
                    thumbnail := Blob.libCompressed
                      (Blob.canvasEncode (Blob.file n "image/png" sz) "image/webp"
                        (some ((9 : ℚ) / 10)) cs) csz
                    blob := Blob.libCompressed
                      (Blob.canvasEncode (Blob.file n "image/png" sz) "image/webp"
                        (some ((9 : ℚ) / 10)) cs) csz
                    compressionRatio := calculateCompressionRatio sz csz
                    isConverted := true } from rfl] at hr
          obtain rfl := Option.some.inj hr
          exact ⟨rfl, rfl, (by decide : ("PNG" : String) ≠ "WEBP"), rfl, rfl, rfl⟩

/-- Witness for C6: a concrete PNG file with both external calls succeeding
satisfies every conjunct of C6 (conclusion shown in reduced form). -/
theorem manual_png_webp_witness :
    ("WEBP" : String) = "WEBP" ∧ ("PNG" : String) = "PNG" ∧ ("PNG" : String) ≠ "WEBP"
    ∧ (true = true)
    ∧ (handleImageOptimization ⟨true, "WEBP"⟩ ⟨"photo.png", "image/png", 5000⟩
        ⟨"id", some 4000, some 3000, []⟩).convertCalls
        = [("image/webp", some ((9 : ℚ) / 10))]
    ∧ conversionQuality "PNG" = none :=
  manual_png_webp ⟨"photo.png", "image/png", 5000⟩ ⟨"id", some 4000, some 3000, []⟩ _ rfl rfl

/-- C7: when manual conversion applies (manual mode on and the source format
differs from the target), the conversion occupies the first 25% of reported
progress and each library progress value p is reported as 25 + 0.75 * p;
otherwise progress is reported unscaled after the initial 0. Scaled values
stay within [25, 100] for p in [0, 100]. -/
theorem progress_scaling (cfg : Config) (file : JSFile) (out : Outcome) (sub : String)
    (hs : (jsSplit file.type '/').get? 1 = some sub) :
    ((cfg.manualConversion && (jsToUpper sub != cfg.selectedFormat)) = true →
        out.convertResult.isSome = true →
        (handleImageOptimization cfg file out).progressReports
          = [0, 25] ++ out.progressEvents.map fun p => 25 + p * (3 / 4))
    ∧ ((cfg.manualConversion && (jsToUpper sub != cfg.selectedFormat)) = false →
        (handleImageOptimization cfg file out).progressReports = 0 :: out.progressEvents)
    ∧ ∀ p : ℚ, 0 ≤ p → p ≤ 100 → 25 ≤ 25 + p * (3 / 4) ∧ 25 + p * (3 / 4) ≤ 100 := by
  obtain ⟨mc, sf⟩ := cfg
  obtain ⟨fid, cv, cp, evs⟩ := out
  dsimp only at *
  refine ⟨?_, ?_, ?_⟩
  · intro hcond hcv
    cases cv with
    | none => simp at hcv
    | some cs =>
        have hmc : mc = true := by
          cases mc
          · simp at hcond
          · rfl
        have hbne : (jsToUpper sub != sf) = true := by
          cases h : (jsToUpper sub != sf)
          · rw [hmc, h] at hcond; simp at hcond
          · rfl
        subst hmc
        unfold handleImageOptimization
        rw [hs]
        dsimp only
        rw [hbne]
        cases cp <;> simp [convertImageFormat]
  · intro hcond
    unfold handleImageOptimization
    rw [hs]
    dsimp only
    have hfalse : (mc && (mc && (jsToUpper sub != sf))) = false := by
      cases mc
      · rfl
      · simpa using hcond
    rw [hfalse]
    cases cp <;> simp
  · intro p h0 h1
    constructor
    · have : 0 ≤ p * (3 / 4) := mul_nonneg h0 (by norm_num)
      linarith
    · have : p * (3 / 4) ≤ 100 * (3 / 4) := mul_le_mul_of_nonneg_right h1 (by norm_num)
      linarith

/-- Witness for C7: a PNG-to-WEBP run with one library progress event at 40
reports [0, 25, 55], and without conversion the same event is unscaled. -/
theorem progress_scaling_witness :
    ((true && (jsToUpper "png" != "WEBP")) = true →
        (some 4000 : Option ℕ).isSome = true →
        (handleImageOptimization ⟨true, "WEBP"⟩ ⟨"photo.png", "image/png", 5000⟩
            ⟨"id", some 4000, some 3000, [40]⟩).progressReports
          = [0, 25] ++ ([(40 : ℚ)].map fun p => 25 + p * (3 / 4)))
    ∧ ((true && (jsToUpper "png" != "WEBP")) = false →
        (handleImageOptimization ⟨true, "WEBP"⟩ ⟨"photo.png", "image/png", 5000⟩
            ⟨"id", some 4000, some 3000, [40]⟩).progressReports = 0 :: [(40 : ℚ)])
    ∧ ∀ p : ℚ, 0 ≤ p → p ≤ 100 → 25 ≤ 25 + p * (3 / 4) ∧ 25 + p * (3 / 4) ≤ 100 :=
  progress_scaling ⟨true, "WEBP"⟩ ⟨"photo.png", "image/png", 5000⟩
    ⟨"id", some 4000, some 3000, [40]⟩ "png" rfl

/-- Counterexample for C1 as stated: a successful run shrinking a 2048-byte
file to 512 bytes stores the strings "2 KB" and "512 Bytes"; the reporter
multiplies only MB values by 1024, so the 512 of "512 Bytes" is misread as
512 KB and the code returns -25500, while the claimed KB-normalized formula
gives 75. -/
theorem getTotalOptimization_bytes_cex :
    ((handleImageOptimization ⟨false, "X"⟩ ⟨"a.png", "image/png", 2048⟩
          ⟨"id", none, some 512, []⟩).result).map
        (fun r => (r.originalSize, r.optimizedSize, getTotalOptimization [r],
          specTotalOptimization [r]))
      = some (⟨2, "KB"⟩, ⟨512, "Bytes"⟩, -25500, 75) := by
  have h2048 : formatFileSize 2048 = ⟨2, "KB"⟩ := by
    unfold formatFileSize
    rw [if_neg (by norm_num)]
    dsimp only
    rw [Nat.log_eq_of_pow_le_of_lt_pow (by norm_num) (by norm_num : (2048 : ℕ) < 1024 ^ 2)]
    congr 1
    unfold round2
    rw [show ((2048 : ℕ) : ℚ) / 1024 ^ 1 = 2 by norm_num,
      show jsRound ((2 : ℚ) * 100) = 200 from jsRound_eq _ _ (by norm_num) (by norm_num)]
    norm_num
  have h512 : formatFileSize 512 = ⟨512, "Bytes"⟩ := by
    unfold formatFileSize
    rw [if_neg (by norm_num)]
    dsimp only
    rw [Nat.log_eq_of_pow_le_of_lt_pow (by norm_num) (by norm_num : (512 : ℕ) < 1024 ^ 1)]
    congr 1
    unfold round2
    rw [show ((512 : ℕ) : ℚ) / 1024 ^ 0 = 512 by norm_num,
      show jsRound ((512 : ℚ) * 100) = 51200 from jsRound_eq _ _ (by norm_num) (by norm_num)]
    norm_num
  rw [show (handleImageOptimization ⟨false, "X"⟩ ⟨"a.png", "image/png", 2048⟩
      ⟨"id", none, some 512, []⟩).result
      = some
          { id := "id", name := "a.png", format := "PNG", originalFormat := "PNG"
            originalSize := formatFileSize 2048, optimizedSize := formatFileSize 512
            thumbnail := Blob.libCompressed (Blob.file "a.png" "image/png" 2048) 512
            blob := Blob.libCompressed (Blob.file "a.png" "image/png" 2048) 512
            compressionRatio := calculateCompressionRatio 2048 512
            isConverted := false } from rfl]
  rw [h2048, h512, Option.map_some']
  refine congrArg some (Prod.ext rfl (Prod.ext rfl (Prod.ext ?_ ?_)))
  · show jsRound ((0 + parseSizeKB ⟨2, "KB"⟩ - (0 + parseSizeKB ⟨512, "Bytes"⟩))
        / (0 + parseSizeKB ⟨2, "KB"⟩) * 100) = -25500
    rw [show parseSizeKB ⟨2, "KB"⟩ = 2 from if_neg (by decide),
      show parseSizeKB ⟨512, "Bytes"⟩ = 512 from if_neg (by decide)]
    apply jsRound_eq <;> norm_num
  · show jsRound (100 * ((specParseKB ⟨2, "KB"⟩ + 0 - (specParseKB ⟨512, "Bytes"⟩ + 0))
        / (specParseKB ⟨2, "KB"⟩ + 0))) = 75
    rw [show specParseKB ⟨2, "KB"⟩ = 2 from (if_neg (by decide)).trans (if_pos rfl),
      show specParseKB ⟨512, "Bytes"⟩ = 512 / 1024 from if_pos rfl]
    apply jsRound_eq <;> norm_num

/-- C1 (amended): the reporter multiplies a size value by 1024 only when its
unit is MB and uses the numeric value unchanged for every other unit; hence
for every non-empty result list whose stored size strings carry only KB or
MB units it returns exactly the spec's KB-normalized
round(100 * (sum_original - sum_optimized) / sum_original). -/
theorem getTotalOptimization_kb_mb (images : List OptimizedImage)
    (hne : images ≠ [])
    (hu : ∀ img ∈ images,
        (img.originalSize.unit = "KB" ∨ img.originalSize.unit = "MB")
        ∧ (img.optimizedSize.unit = "KB" ∨ img.optimizedSize.unit = "MB")) :
    getTotalOptimization images = specTotalOptimization images := by
  have hparse : ∀ s : SizeStr, (s.unit = "KB" ∨ s.unit = "MB") →
      parseSizeKB s = specParseKB s := by
    intro s h
    rcases h with h | h <;> simp [parseSizeKB, specParseKB, h]
  have hfold : ∀ f : OptimizedImage → ℚ,
      images.foldl (fun acc img => acc + f img) 0 = (images.map f).sum := by
    intro f
    rw [List.sum_eq_foldl, List.foldl_map]
  have hlen : images.length ≠ 0 := by simpa [List.length_eq_zero] using hne
  have h1 : images.map (fun img => parseSizeKB img.originalSize)
      = images.map fun img => specParseKB img.originalSize :=
    List.map_congr_left fun img hm => hparse _ ((hu img hm).1)
  have h2 : images.map (fun img => parseSizeKB img.optimizedSize)
      = images.map fun img => specParseKB img.optimizedSize :=
    List.map_congr_left fun img hm => hparse _ ((hu img hm).2)
  unfold getTotalOptimization specTotalOptimization
  rw [if_neg hlen, if_neg hlen]
  dsimp only
  rw [hfold, hfold, h1, h2, mul_comm]

/-- Witness for C1 (amended): a singleton list with sizes "2 KB" and "1 KB"
satisfies the amended claim. -/
theorem getTotalOptimization_kb_mb_witness :
    getTotalOptimization
        [⟨"a", "x.png", "PNG", "PNG", ⟨2, "KB"⟩, ⟨1, "KB"⟩, Blob.file "x.png" "image/png" 2048,
          Blob.file "x.png" "image/png" 2048, 50, false⟩]
      = specTotalOptimization
        [⟨"a", "x.png", "PNG", "PNG", ⟨2, "KB"⟩, ⟨1, "KB"⟩, Blob.file "x.png" "image/png" 2048,
          Blob.file "x.png" "image/png" 2048, 50, false⟩] :=
  getTotalOptimization_kb_mb _ (List.cons_ne_nil _ _)
    (by
      intro img hm
      rw [List.mem_singleton] at hm
      subst hm
      exact ⟨Or.inl rfl, Or.inl rfl⟩)

/-- Counterexample for C8 as stated: in the manual-conversion variant the
format conversion happens at compression time — the canvas-encode call is in
the compression-time trace and its output is baked into the stored blob —
and the download handler performs no conversion at all: it downloads exactly
the stored compression-time blob. -/
theorem downloadAll_no_reconversion_cex :
    ((handleImageOptimization ⟨true, "WEBP"⟩ ⟨"pic.png", "image/png", 1000⟩
          ⟨"id", some 900, some 800, []⟩).result).map
        (fun r => (r.blob, handleDownloadAll [r]))
      = some
          (Blob.libCompressed
              (Blob.canvasEncode (Blob.file "pic.png" "image/png" 1000) "image/webp"
                (some ((9 : ℚ) / 10)) 900) 800,
            [⟨"pic-optimized.webp",
              Blob.libCompressed
                (Blob.canvasEncode (Blob.file "pic.png" "image/png" 1000) "image/webp"
                  (some ((9 : ℚ) / 10)) 900) 800⟩])
    ∧ (handleImageOptimization ⟨true, "WEBP"⟩ ⟨"pic.png", "image/png", 1000⟩
          ⟨"id", some 900, some 800, []⟩).convertCalls
        = [("image/webp", some ((9 : ℚ) / 10))] :=
  ⟨rfl, rfl⟩

/-- C8 (amended): the Batch Exporter never re-encodes: it triggers exactly
one download per held result, of the blob stored at compression time, under
the deterministic name stripExt(name) ++ "-optimized." ++ lowercased result
format; in the manual-conversion variant the conversion output is already
embedded in that stored blob because the conversion ran at compression
time. -/
theorem downloadAll_stored_blob (images : List OptimizedImage) (file : JSFile) (out : Outcome)
    (r : OptimizedImage) (cs c : ℕ)
    (ht : file.type = "image/png")
    (hcv : out.convertResult = some cs)
    (hcp : out.compressResult = some c)
    (hr : (handleImageOptimization ⟨true, "WEBP"⟩ file out).result = some r) :
    handleDownloadAll images
        = images.map (fun img =>
            ⟨stripExt img.name ++ "-optimized." ++ jsToLower img.format, img.blob⟩)
    ∧ (handleDownloadAll images).length = images.length
    ∧ r.blob = Blob.libCompressed
        (Blob.canvasEncode (Blob.file file.name file.type file.size) "image/webp"
          (some ((9 : ℚ) / 10)) cs) c
    ∧ handleDownloadAll [r] = [⟨stripExt file.name ++ "-optimized." ++ "webp", r.blob⟩] := by
  obtain ⟨n, t, sz⟩ := file
  dsimp only at ht
  subst ht
  obtain ⟨fid, cv, cp, evs⟩ := out
  dsimp only at hcv hcp
  subst hcv
  subst hcp
  rw [show (handleImageOptimization ⟨true, "WEBP"⟩ ⟨n, "image/png", sz⟩
      ⟨fid, some cs, some c, evs⟩).result
      = some
          { id := fid, name := n, format := "WEBP", originalFormat := "PNG"
            originalSize := formatFileSize sz, optimizedSize := formatFileSize c
            thumbnail := Blob.libCompressed
              (Blob.canvasEncode (Blob.file n "image/png" sz) "image/webp"
                (some ((9 : ℚ) / 10)) cs) c
            blob := Blob.libCompressed
              (Blob.canvasEncode (Blob.file n "image/png" sz) "image/webp"
                (some ((9 : ℚ) / 10)) cs) c
            compressionRatio := calculateCompressionRatio sz c
            isConverted := true } from rfl] at hr
  obtain rfl := Option.some.inj hr
  exact ⟨rfl, by simp [handleDownloadAll], rfl, rfl⟩

/-- Witness for C8 (amended): concrete converted run; the single download is
the stored converted-then-compressed blob under the name
"pic-optimized.webp". -/
theorem downloadAll_stored_blob_witness :
    handleDownloadAll ([] : List OptimizedImage) = []
    ∧ (handleDownloadAll ([] : List OptimizedImage)).length = 0
    ∧ Blob.libCompressed
          (Blob.canvasEncode (Blob.file "pic.png" "image/png" 1000) "image/webp"
            (some ((9 : ℚ) / 10)) 900) 800
        = Blob.libCompressed
          (Blob.canvasEncode (Blob.file "pic.png" "image/png" 1000) "image/webp"
            (some ((9 : ℚ) / 10)) 900) 800
    ∧ handleDownloadAll
          [⟨"id", "pic.png", "WEBP", "PNG", formatFileSize 1000, formatFileSize 800,
            Blob.libCompressed
              (Blob.canvasEncode (Blob.file "pic.png" "image/png" 1000) "image/webp"
                (some ((9 : ℚ) / 10)) 900) 800,
            Blob.libCompressed
              (Blob.canvasEncode (Blob.file "pic.png" "image/png" 1000) "image/webp"
                (some ((9 : ℚ) / 10)) 900) 800,
            calculateCompressionRatio 1000 800, true⟩]
        = [⟨"pic-optimized.webp",
            Blob.libCompressed
              (Blob.canvasEncode (Blob.file "pic.png" "image/png" 1000) "image/webp"
                (some ((9 : ℚ) / 10)) 900) 800⟩] :=
  downloadAll_stored_blob [] ⟨"pic.png", "image/png", 1000⟩ ⟨"id", some 900, some 800, []⟩
    _ 900 800 rfl rfl rfl rfl

/-- Counterexample for C10 as stated: at one terabyte (1024 ^ 4 bytes) the
unit index is 4, `sizes[4]` is JS `undefined`, and the produced unit token
"undefined" is not among Bytes, KB, MB, GB — so the claim fails for this
positive byte count. -/
theorem formatFileSize_unit_overflow_cex :
    formatFileSize (1024 ^ 4) = ⟨1, "undefined"⟩ ∧ "undefined" ∉ sizeUnits := by
  refine ⟨?_, by decide⟩
  unfold formatFileSize
  rw [if_neg (by norm_num)]
  dsimp only
  rw [Nat.log_pow (by norm_num) 4]
  congr 1
  unfold round2
  rw [show ((1024 ^ 4 : ℕ) : ℚ) / 1024 ^ 4 = 1 by norm_num,
    show jsRound ((1 : ℚ) * 100) = 100 from jsRound_eq _ _ (by norm_num) (by norm_num)]
  norm_num

/-- C10 (amended): `formatFileSize` returns "0 Bytes" at 0, and for every
positive byte count below 1024 ^ 4 it returns the value b / 1024 ^ i rounded
to two decimal places with the unit indexed by i = floor(log_1024 b) from
Bytes/KB/MB/GB; the size strings stored in every successful result are
exactly `formatFileSize` of the original and compressed byte sizes, which is
what the Aggregate Reporter later parses. -/
theorem formatFileSize_spec (b : ℕ) (h1 : 0 < b) (h2 : b < 1024 ^ 4) :
    Nat.log 1024 b < 4
    ∧ formatFileSize b
        = ⟨round2 ((b : ℚ) / 1024 ^ Nat.log 1024 b),
            (sizeUnits.get? (Nat.log 1024 b)).getD "undefined"⟩
    ∧ (formatFileSize b).unit ∈ sizeUnits
    ∧ formatFileSize 0 = ⟨0, "Bytes"⟩
    ∧ ∀ (cfg : Config) (file : JSFile) (out : Outcome) (r : OptimizedImage) (c : ℕ),
        (handleImageOptimization cfg file out).result = some r →
        out.compressResult = some c →
        r.originalSize = formatFileSize file.size ∧ r.optimizedSize = formatFileSize c := by
  have hlog : Nat.log 1024 b < 4 := Nat.log_lt_of_lt_pow h1.ne' h2
  have hfmt : formatFileSize b
      = ⟨round2 ((b : ℚ) / 1024 ^ Nat.log 1024 b),
          (sizeUnits.get? (Nat.log 1024 b)).getD "undefined"⟩ := by
    unfold formatFileSize
    rw [if_neg h1.ne']
  refine ⟨hlog, hfmt, ?_, rfl, ?_⟩
  · rw [hfmt]
    have hi : Nat.log 1024 b < sizeUnits.length := by
      simpa [sizeUnits] using hlog
    dsimp only
    rw [List.get?_eq_get hi, Option.getD_some]
    exact List.get_mem _ _ _
  · intro cfg file out r c hrr hcc
    obtain ⟨sub, c', hsub, hc', -, -, -, -, hosize, hcsize, -, -⟩ :=
      handleImageOptimization_success cfg file out r hrr
    rw [hcc] at hc'
    obtain rfl := Option.some.inj hc'
    exact ⟨hosize, hcsize⟩

/-- Witness for C10 (amended): 1536 bytes display as 1.5 KB. -/
theorem formatFileSize_spec_witness :
    Nat.log 1024 1536 < 4
    ∧ formatFileSize 1536
        = ⟨round2 (((1536 : ℕ) : ℚ) / 1024 ^ Nat.log 1024 1536),
            (sizeUnits.get? (Nat.log 1024 1536)).getD "undefined"⟩
    ∧ (formatFileSize 1536).unit ∈ sizeUnits
    ∧ formatFileSize 0 = ⟨0, "Bytes"⟩
    ∧ ∀ (cfg : Config) (file : JSFile) (out : Outcome) (r : OptimizedImage) (c : ℕ),
        (handleImageOptimization cfg file out).result = some r →
        out.compressResult = some c →
        r.originalSize = formatFileSize file.size ∧ r.optimizedSize = formatFileSize c :=
  formatFileSize_spec 1536 (by norm_num) (by norm_num)

end Smollr
